import Mathlib

/-!
Verification of the rule-driven structural scanner implemented in
`.cursor/hooks/mirror.py`.  The Python domain models (frozen Pydantic
models with pure methods) are shallowly embedded as Lean structures and
executable functions; the external Python `ast` parser is modelled as an
abstract `String → Option Ast` parameter, and syntax trees are embedded
as a Lean inductive mirroring exactly the node shapes that
`SourceFile._detect_signal` inspects.
-/

namespace Mirror

/-! ### String helpers (Python `str` semantics used by `mirror.py`) -/

/-- Whitespace stripped by Python `str.strip()` (ASCII subset; the
source lines scanned by the tool contain only these). -/
def pyIsSpace (c : Char) : Bool :=
  c == ' ' || c == '\t' || c == '\n' || c == '\r' || c == '\x0b' || c == '\x0c'

/-- Python `str.strip()`. -/
def pyStrip (s : String) : String :=
  String.mk (((s.data.dropWhile pyIsSpace).reverse.dropWhile pyIsSpace).reverse)

/-- Line-break characters recognised by Python `str.splitlines()`. -/
def isLineBreak (c : Char) : Bool :=
  c == '\n' || c == '\r' || c == '\x0b' || c == '\x0c' ||
  c == '\x1c' || c == '\x1d' || c == '\x1e' || c == '\x85' ||
  c == '\u2028' || c == '\u2029'

/-- Worker for `splitlines`: `acc` holds the current line reversed. -/
def splitlinesAux : List Char → List Char → List String
  | [], acc => if acc.isEmpty then [] else [String.mk acc.reverse]
  | '\r' :: '\n' :: rest, acc => String.mk acc.reverse :: splitlinesAux rest []
  | c :: rest, acc =>
      if isLineBreak c then String.mk acc.reverse :: splitlinesAux rest []
      else splitlinesAux rest (c :: acc)

/-- Python `str.splitlines()` (no trailing empty line for a trailing
newline, `""` gives `[]`). -/
def splitlines (s : String) : List String :=
  splitlinesAux s.data []

/-- `pre` is a prefix of `s` (Python `str.startswith`). -/
def strStartsWith (s pre : String) : Bool :=
  pre.data.isPrefixOf s.data

/-- `suf` is a suffix of `s` (Python `str.endswith`). -/
def strEndsWith (s suf : String) : Bool :=
  suf.data.isSuffixOf s.data

/-! ### Syntax-tree embedding

The Python code pattern-matches `ast` nodes with the shapes below; every
other node shape falls through to `case _`.  `children` is the list
produced by `ast.iter_child_nodes`, in order, which is what `ast.walk`
expands. -/

/-- Target of an annotated assignment: `ast.Name` or anything else. -/
inductive AnnTarget where
  | nameTarget (id : String)
  | otherTarget
deriving DecidableEq

/-- Annotation of an annotated assignment: `ast.Name` or anything else. -/
inductive AnnType where
  | nameAnn (id : String)
  | otherAnn
deriving DecidableEq

/-- Default-value expression of an annotated assignment, with exactly the
distinctions `SourceFile._is_safe_default` draws: `ast.Constant(None)`,
any other constant, a call whose callee is the name `Field`, any other
call, anything else. -/
inductive DefaultExpr where
  | constantNone
  | constantOther
  | callField
  | callOtherFunc
  | otherExpr
deriving DecidableEq

/-- A Python syntax-tree node, restricted to the shapes
`SourceFile._detect_signal` distinguishes.  `lineno` is the node's
source line (`ast` guarantees it is ≥ 1 for real parse results). -/
inductive Ast where
  | tryStmt (lineno : Nat) (children : List Ast)
  | raiseStmt (lineno : Nat) (children : List Ast)
  | awaitExpr (lineno : Nat) (children : List Ast)
  | classDef (name : String) (lineno : Nat) (children : List Ast)
  | functionDef (name : String) (lineno : Nat) (children : List Ast)
  | annAssign (target : AnnTarget) (ty : AnnType) (value : Option DefaultExpr)
      (lineno : Nat) (children : List Ast)
  | otherNode (lineno : Nat) (children : List Ast)

/-- The child nodes, as `ast.iter_child_nodes` yields them. -/
def Ast.children : Ast → List Ast
  | .tryStmt _ cs => cs
  | .raiseStmt _ cs => cs
  | .awaitExpr _ cs => cs
  | .classDef _ _ cs => cs
  | .functionDef _ _ cs => cs
  | .annAssign _ _ _ _ cs => cs
  | .otherNode _ cs => cs

/-- The node's source line number. -/
def Ast.lineno : Ast → Nat
  | .tryStmt l _ => l
  | .raiseStmt l _ => l
  | .awaitExpr l _ => l
  | .classDef _ l _ => l
  | .functionDef _ l _ => l
  | .annAssign _ _ _ l _ => l
  | .otherNode l _ => l

mutual

/-- Number of nodes of a tree. -/
def sizeA : Ast → Nat
  | .tryStmt _ cs => 1 + sizeL cs
  | .raiseStmt _ cs => 1 + sizeL cs
  | .awaitExpr _ cs => 1 + sizeL cs
  | .classDef _ _ cs => 1 + sizeL cs
  | .functionDef _ _ cs => 1 + sizeL cs
  | .annAssign _ _ _ _ cs => 1 + sizeL cs
  | .otherNode _ cs => 1 + sizeL cs

/-- Number of nodes of a forest. -/
def sizeL : List Ast → Nat
  | [] => 0
  | c :: cs => sizeA c + sizeL cs

end

/-- One step's worth of children of a whole queue, in order. -/
def roundChildren (l : List Ast) : List Ast :=
  (l.map Ast.children).flatten

/-- Breadth-first traversal with explicit fuel; one unit of fuel is
consumed per emitted node, so `sizeL queue` fuel always suffices.  This
is the queue algorithm of Python's `ast.walk` (pop the front, append the
children at the back). -/
def bfsFuel : Nat → List Ast → List Ast
  | 0, _ => []
  | _ + 1, [] => []
  | f + 1, n :: rest => n :: bfsFuel f (rest ++ n.children)

/-- `ast.walk tree`: breadth-first enumeration of all nodes. -/
def walk (t : Ast) : List Ast :=
  bfsFuel (sizeA t) [t]

/-! ### Signals (`Signal` model) and detection -/

/-- `Signal`: a mechanical fact detected by the AST scan. -/
structure Signal where
  kind : String
  patternId : String
  line : Nat
  content : String
  hint : String
deriving DecidableEq

/-- The guard of the `service_class` case:
`re.search(r"(Service|Manager|Handler|Processor)$", name)`. -/
def isServiceClassName (name : String) : Bool :=
  strEndsWith name "Service" || strEndsWith name "Manager" ||
  strEndsWith name "Handler" || strEndsWith name "Processor"

/-- The guard of the `validate_function` case:
`re.match(r"^(validate_|check_|verify_)", name)`. -/
def isValidateFuncName (name : String) : Bool :=
  strStartsWith name "validate_" || strStartsWith name "check_" ||
  strStartsWith name "verify_"

/-- The guard of the `boolean_flag` case: the assignment target is a
plain name starting with `is_`. -/
def isBoolFlagTarget : AnnTarget → Bool
  | .nameTarget id => strStartsWith id "is_"
  | .otherTarget => false

/-- The guard of the `primitive_type` case: the annotation is a plain
name among `str`, `int`, `bool`, `float`; returns that name. -/
def primName : AnnType → Option String
  | .nameAnn t =>
      if t == "str" || t == "int" || t == "bool" || t == "float" then some t
      else none
  | .otherAnn => none

/-- `SourceFile._is_safe_default`: `None` constants and `Field(...)`
calls are architecturally safe defaults. -/
def isSafeDefault : DefaultExpr → Bool
  | .constantNone => true
  | .callField => true
  | _ => false

/-- `SourceFile._detect_signal`: at most one signal per node, produced by
the first matching case of the Python `match` statement. `g` is the line
getter built by `SourceFile._make_line_getter`. -/
def detectSignal (g : Nat → String) : Ast → Option Signal
  | .tryStmt l _ =>
      some ⟨"try_block", "03", l, g l, "try/except — use Result types instead"⟩
  | .raiseStmt l _ =>
      some ⟨"raise_stmt", "03", l, g l, "raise — return Failure types instead"⟩
  | .awaitExpr l _ =>
      some ⟨"await_expr", "04", l, g l, "await in domain — async belongs in Shell"⟩
  | .classDef name l _ =>
      if isServiceClassName name then
        some ⟨"service_class", "04", l, g l,
          "*Service/*Manager class — use Intent objects"⟩
      else none
  | .functionDef name l _ =>
      if isValidateFuncName name then
        some ⟨"validate_function", "01", l, g l,
          "validate_* functions — use Factory pattern"⟩
      else none
  | .annAssign target ty value l _ =>
      if isBoolFlagTarget target then
        some ⟨"boolean_flag", "02", l, g l,
          "is_* boolean flag — use Sum Types instead"⟩
      else
        match primName ty with
        | some t =>
            some ⟨"primitive_type", "01", l, g l,
              "Primitive type \x27" ++ t ++ "\x27 — consider Value Object"⟩
        | none =>
            match value with
            | some v =>
                if !isSafeDefault v then
                  some ⟨"field_default", "01", l, g l,
                    "Default value — explicit construction required"⟩
                else none
            | none => none
  | .otherNode _ _ => none

/-- `SourceFile._make_line_getter`'s inner `get_line`: total lookup of a
stripped, width-limited source line; out-of-range line numbers give
`""`. -/
def getLine (lines : List String) (lineno : Nat) : String :=
  if 1 ≤ lineno ∧ lineno ≤ lines.length then
    let line := pyStrip (lines.getD (lineno - 1) "")
    if line.length > 60 then String.mk (line.data.take 60) ++ "..." else line
  else ""

/-- `SourceFile`: path plus full content. -/
structure SourceFile where
  path : String
  content : String

/-- `SourceFile.scan`: parse the content (the external `ast.parse`,
passed as `parse`); a parse failure yields no signals; otherwise every
walked node is checked by `_detect_signal` and the hits are collected in
traversal order. -/
def scan (parse : String → Option Ast) (sf : SourceFile) : List Signal :=
  match parse sf.content with
  | none => []
  | some tree => (walk tree).filterMap (detectSignal (getLine (splitlines sf.content)))

/-! ### Rules and glob matching (`RuleRef`) -/

/-- `RuleRef`: a pattern rule discovered from the rules directory. -/
structure RuleRef where
  patternId : String
  name : String
  globs : List String
  content : String
deriving DecidableEq

/-- Python `str.replace(sub, rep)` on characters: leftmost,
non-overlapping, with fuel (one unit per consumed character).  For the
empty `sub` this is the identity (the code only replaces `"**"`). -/
def replChars (sub rep : List Char) : Nat → List Char → List Char
  | _, [] => []
  | 0, s => s
  | f + 1, c :: rest =>
      if sub.isPrefixOf (c :: rest) && !sub.isEmpty then
        rep ++ replChars sub rep f ((c :: rest).drop sub.length)
      else c :: replChars sub rep f rest

/-- Python `s.replace(sub, rep)`. -/
def pyReplace (s sub rep : String) : String :=
  String.mk (replChars sub.data rep.data s.data.length s.data)

/-- Backtracking matcher for `fnmatch.fnmatch` patterns restricted to
`*` (any character run, `/` included), `?` (any one character) and
literal characters — the constructs appearing in the rule globs of this tool.  Fuel: every call consumes one unit and shrinks
`pattern.length + string.length` by at least one, so
`pattern.length + string.length + 1` fuel is exact. -/
def fnmatchFuel : Nat → List Char → List Char → Bool
  | 0, _, _ => false
  | _ + 1, [], [] => true
  | _ + 1, [], _ :: _ => false
  | f + 1, '*' :: ps, s =>
      fnmatchFuel f ps s ||
        (match s with
          | [] => false
          | _ :: t => fnmatchFuel f ('*' :: ps) t)
  | f + 1, '?' :: ps, _ :: t => fnmatchFuel f ps t
  | _ + 1, '?' :: _, [] => false
  | f + 1, c :: ps, d :: t => c == d && fnmatchFuel f ps t
  | _ + 1, _ :: _, [] => false

/-- `fnmatch.fnmatch(path, pat)` (POSIX case handling: identity). -/
def fnmatchStr (path pat : String) : Bool :=
  fnmatchFuel (pat.data.length + path.data.length + 1) pat.data path.data

/-- `RuleRef.matches_path`: a path is covered when, for some glob, after
collapsing `**` to `*`, either the suffix-widened pattern `*<pattern>`
or the pattern itself fnmatches the whole path string. -/
def matchesPath (r : RuleRef) (path : String) : Bool :=
  r.globs.any fun glob =>
    let pattern := pyReplace glob "**" "*"
    fnmatchStr path ("*" ++ pattern) || fnmatchStr path pattern

/-! ### Scan results and report formatting (`ScanResult`) -/

/-- `ScanResult`: signals found plus the rules applicable to the file. -/
structure ScanResult where
  filePath : String
  signals : List Signal
  applicableRules : List RuleRef
deriving DecidableEq

/-- `HookOutput` sum type: an agent message or nothing to emit. -/
inductive HookOutput where
  | messageOutput (agentMessage : String)
  | noOutput
deriving DecidableEq

/-- `pathlib.Path.name`: the final path component. -/
def lastComponent (s : String) : String :=
  String.mk ((s.data.reverse.takeWhile (fun c => c != '/')).reverse)

/-- The three report lines `format_message` appends for one signal. -/
def signalEntry (sig : Signal) : List String :=
  ["- **Line " ++ Nat.repr sig.line ++ "** [" ++ sig.kind ++ "]: `" ++
      sig.content ++ "`",
   "  - Hint: " ++ sig.hint,
   "  - Related: Pattern " ++ sig.patternId ++ "\n"]

/-- The three report lines `format_message` appends for one rule. -/
def ruleEntry (r : RuleRef) : List String :=
  ["<rule id=\"" ++ r.patternId ++ "\" name=\"" ++ r.name ++ "\">\n",
   r.content,
   "\n</rule>\n"]

/-- The `parts` list assembled by `ScanResult.format_message` (before
joining with newlines). -/
def formatParts (res : ScanResult) : List String :=
  ["## Architect\x27s Mirror: " ++ lastComponent res.filePath ++ "\n"]
  ++ (if res.signals.isEmpty then [] else
      ["### Signals Detected\n",
       "These are mechanical observations, not verdicts. Use your judgment.\n"]
      ++ (res.signals.map signalEntry).flatten)
  ++ (if res.applicableRules.isEmpty then [] else
      ["\n### Applicable Rules\n",
       "Review your changes against these patterns:\n"]
      ++ (res.applicableRules.map ruleEntry).flatten)
  ++ ["\n### Your Judgment\n",
      "Reconcile the signals against the rules. ",
      "Some signals may be false positives in context. ",
      "Fix actual violations. Ignore false alarms.\n"]

/-- Python `sep.join(parts)`. -/
def strJoin (sep : String) : List String → String
  | [] => ""
  | [x] => x
  | x :: xs => x ++ sep ++ strJoin sep xs

/-- `ScanResult.format_message`: the empty sentinel when there is
neither a signal nor an applicable rule, otherwise the joined report. -/
def formatMessage (res : ScanResult) : HookOutput :=
  if res.signals.isEmpty && res.applicableRules.isEmpty then .noOutput
  else .messageOutput (strJoin "\n" (formatParts res))

/-- `FileProcessor.process`: scan the file and keep the rules whose
globs cover its path. -/
def process (rules : List RuleRef) (parse : String → Option Ast)
    (source : SourceFile) : ScanResult :=
  { filePath := source.path,
    signals := scan parse source,
    applicableRules := rules.filter (fun r => matchesPath r source.path) }

/-! ### Specification-side definitions

These restate, in the terms of the spec, the quantities the claims are
about, so the behaviour of the code can be compared against them. -/

/-- Whether a node is a `try` statement. -/
def nodeIsTry : Ast → Bool
  | .tryStmt _ _ => true
  | _ => false

/-- Whether a node is a `raise` statement. -/
def nodeIsRaise : Ast → Bool
  | .raiseStmt _ _ => true
  | _ => false

/-- Whether a node is an `await` expression. -/
def nodeIsAwait : Ast → Bool
  | .awaitExpr _ _ => true
  | _ => false

/-- Whether a node is a class definition whose name matches the
service-class rule. -/
def nodeIsServiceClass : Ast → Bool
  | .classDef name _ _ => isServiceClassName name
  | _ => false

/-- Whether a node is a function definition whose name matches the
validate-function rule. -/
def nodeIsValidateFunc : Ast → Bool
  | .functionDef name _ _ => isValidateFuncName name
  | _ => false

/-- Whether a node is an annotated assignment matching the boolean-flag
rule. -/
def nodeIsBoolFlag : Ast → Bool
  | .annAssign target _ _ _ _ => isBoolFlagTarget target
  | _ => false

/-- Whether a node is an annotated assignment matching the
primitive-type rule. -/
def nodeIsPrimType : Ast → Bool
  | .annAssign _ ty _ _ _ => (primName ty).isSome
  | _ => false

/-- Whether a node is an annotated assignment matching the unsafe
field-default rule. -/
def nodeIsFieldDefault : Ast → Bool
  | .annAssign _ _ (some v) _ _ => !isSafeDefault v
  | _ => false

/-- All rule kinds of the signal catalog that match a node, listed in
the dispatch order of the `match` statement of `_detect_signal`
(`try_block`, `raise_stmt`, `await_expr`, `service_class`,
`validate_function`, `boolean_flag`, `primitive_type`,
`field_default`).  Each kind is matched independently, the way the
one-violation-per-pair reading of the spec requires. -/
def matchingKinds (n : Ast) : List String :=
  (if nodeIsTry n then ["try_block"] else []) ++
  (if nodeIsRaise n then ["raise_stmt"] else []) ++
  (if nodeIsAwait n then ["await_expr"] else []) ++
  (if nodeIsServiceClass n then ["service_class"] else []) ++
  (if nodeIsValidateFunc n then ["validate_function"] else []) ++
  (if nodeIsBoolFlag n then ["boolean_flag"] else []) ++
  (if nodeIsPrimType n then ["primitive_type"] else []) ++
  (if nodeIsFieldDefault n then ["field_default"] else [])

/-- Number of (node, matching rule) pairs of a scanned file — the
violation count demanded by the rule of the spec that each match
yields one violation. -/
def pairCount (parse : String → Option Ast) (sf : SourceFile) : Nat :=
  match parse sf.content with
  | none => 0
  | some tree => ((walk tree).map (fun n => (matchingKinds n).length)).sum

/-- Document pre-order traversal with fuel (stack algorithm: children
are pushed on the front). -/
def preorderFuel : Nat → List Ast → List Ast
  | 0, _ => []
  | _ + 1, [] => []
  | f + 1, n :: rest => n :: preorderFuel f (n.children ++ rest)

/-- Document pre-order enumeration of all nodes of a tree. -/
def preorderWalk (t : Ast) : List Ast :=
  preorderFuel (sizeA t) [t]

/-- The violation sequence in the order the spec asserts: nodes in
document pre-order, one signal per node at most. -/
def preorderScan (parse : String → Option Ast) (sf : SourceFile) : List Signal :=
  match parse sf.content with
  | none => []
  | some tree =>
      (preorderWalk tree).filterMap (detectSignal (getLine (splitlines sf.content)))

/-- Successive depth levels of a forest: the queue itself, then the
levels of all its children. -/
def levelsFuel : Nat → List Ast → List (List Ast)
  | 0, _ => []
  | _ + 1, [] => []
  | f + 1, n :: rest => (n :: rest) :: levelsFuel f (roundChildren (n :: rest))

/-- Depth levels of a tree, the nodes of each level in left-to-right
(document) order. -/
def levels (t : Ast) : List (List Ast) :=
  levelsFuel (sizeA t) [t]

/-- Standard whole-path glob matching, the semantics named by the
glob-membership policy of the spec: the glob itself must fnmatch the
whole path. -/
def stdGlobMatch (path glob : String) : Bool :=
  fnmatchStr path glob

/-- Occurrences of `sub` in a character list (overlap-free counting is
not needed for the report marker). -/
def countOccur (sub : List Char) : List Char → Nat
  | [] => 0
  | c :: rest => (if sub.isPrefixOf (c :: rest) then 1 else 0) + countOccur sub rest

/-- Number of violation entries a formatted report displays (bullet
lines opening with the entry marker). -/
def violationEntryCount : HookOutput → Nat
  | .noOutput => 0
  | .messageOutput m => countOccur "- **Line ".data m.data

/-- The stripped, untruncated source line a signal refers to (empty for
out-of-range line numbers). -/
def rawLine (lines : List String) (lineno : Nat) : String :=
  if 1 ≤ lineno ∧ lineno ≤ lines.length then pyStrip (lines.getD (lineno - 1) "")
  else ""

end Mirror

namespace SpecEngine

/-!
Modelled from the spec: the validated rule construction of the original
rule-driven engine (`ValidationRule` / `RuleSpec` with a compiled
pattern, failing with `InvalidPatternError`).  This code is referenced
by `tests/test_core.py` (imports of `ValidationRule`, `RuleKind`,
`InvalidPatternError`-style behaviour) but its implementation is not
present under the current sources, whose `RuleRef` carries no pattern;
the definitions below follow sections 4.1 and 7 of the spec.
-/

/-- A matching expression: the regular-expression subset the rule
patterns of the spec use (literals, `.`, postfix `*`, alternation and
grouping; `^` and `$` are handled as anchors by the compiler). -/
inductive Rx where
  | eps
  | chr (c : Char)
  | anyChar
  | alt (a b : Rx)
  | cat (a b : Rx)
  | star (a : Rx)
  | nope
deriving DecidableEq

/-- Whether the expression accepts the empty string. -/
def nullable : Rx → Bool
  | .eps => true
  | .chr _ => false
  | .anyChar => false
  | .alt a b => nullable a || nullable b
  | .cat a b => nullable a && nullable b
  | .star _ => true
  | .nope => false

/-- Brzozowski derivative, giving the matching expressions their
semantics. -/
def deriv (r : Rx) (c : Char) : Rx :=
  match r with
  | .eps => .nope
  | .chr d => if d == c then .eps else .nope
  | .anyChar => .eps
  | .alt a b => .alt (deriv a c) (deriv b c)
  | .cat a b =>
      if nullable a then .alt (.cat (deriv a c) b) (deriv b c)
      else .cat (deriv a c) b
  | .star a => .cat (deriv a c) (.star a)
  | .nope => .nope

/-- Whole-string match of a matching expression. -/
def matchFull (r : Rx) : List Char → Bool
  | [] => nullable r
  | c :: t => matchFull (deriv r c) t

mutual

/-- Alternation level of the pattern grammar (`seq ('|' seq)*`). -/
def parseAlt : Nat → List Char → Option (Rx × List Char)
  | 0, _ => none
  | f + 1, s =>
      match parseSeq f s with
      | none => none
      | some (r, rest) =>
          match rest with
          | '|' :: rest2 =>
              match parseAlt f rest2 with
              | some (r2, rest3) => some (.alt r r2, rest3)
              | none => none
          | _ => some (r, rest)

/-- Concatenation level of the pattern grammar (a run of factors). -/
def parseSeq : Nat → List Char → Option (Rx × List Char)
  | 0, _ => none
  | f + 1, s =>
      match s with
      | [] => some (.eps, [])
      | ')' :: _ => some (.eps, s)
      | '|' :: _ => some (.eps, s)
      | _ =>
          match parseFactor f s with
          | none => none
          | some (r, rest) =>
              match parseSeq f rest with
              | some (r2, rest2) => some (.cat r r2, rest2)
              | none => none

/-- One factor: an atom with an optional postfix `*` (a dangling or
doubled repeat operator fails, as a pattern compiler does). -/
def parseFactor : Nat → List Char → Option (Rx × List Char)
  | 0, _ => none
  | f + 1, s =>
      match parseAtom f s with
      | none => none
      | some (r, rest) =>
          match rest with
          | '*' :: rest2 => some (.star r, rest2)
          | _ => some (r, rest)

/-- One atom: a parenthesised group (the `)` must be present), `.`, or a
literal character. -/
def parseAtom : Nat → List Char → Option (Rx × List Char)
  | 0, _ => none
  | f + 1, s =>
      match s with
      | '(' :: rest =>
          match parseAlt f rest with
          | some (r, ')' :: rest2) => some (r, rest2)
          | _ => none
      | '.' :: rest => some (.anyChar, rest)
      | c :: rest =>
          if c == ')' || c == '|' || c == '*' || c == '^' || c == '$' then none
          else some (.chr c, rest)
      | [] => none

end

/-- Compile a pattern string into a matching expression with its
anchors: a leading `^` anchors at the start, a trailing `$` at the end;
the body must parse completely or compilation fails. -/
def compilePattern (p : String) : Option (Bool × Rx × Bool) :=
  let cs := p.data
  let startAnchored := cs.head? == some '^'
  let cs1 := if startAnchored then cs.tail else cs
  let endAnchored := cs1.getLast? == some '$'
  let body := if endAnchored then cs1.dropLast else cs1
  match parseAlt (3 * body.length + 8) body with
  | some (r, []) => some (startAnchored, r, endAnchored)
  | _ => none

/-- The closed set of rule kinds of the spec (section 6). -/
inductive RuleKind where
  | importRule
  | restrictedImport
  | nodeUsage
  | classNameRule
  | functionNameRule
  | typeAnnRule
  | attributeNameRule
  | attributeDefault
deriving DecidableEq

/-- `RuleSpec`: one rule — identifier, human name, kind discriminator,
pattern string and message. -/
structure RuleSpec where
  id : String
  name : String
  kind : RuleKind
  pattern : String
  message : String
deriving DecidableEq

/-- The construction-time failure for a malformed pattern. -/
inductive InvalidPatternError where
  | invalidPattern (pattern : String)
deriving DecidableEq

/-- Whether `pattern` compiles as a matching expression for `kind`:
`node_usage` compares the category name literally and
`attribute_default` consults no matching expression, so any pattern
string is valid for them; every other kind requires the pattern to
compile as a regular expression. -/
def patternCompiles (kind : RuleKind) (pattern : String) : Bool :=
  match kind with
  | .nodeUsage => true
  | .attributeDefault => true
  | _ => (compilePattern pattern).isSome

/-- `construct(kind, pattern, message) -> RuleSpec`: validates the
pattern eagerly and fails with `InvalidPatternError` if it does not
compile for the kind, so no invalid rule is ever observable. -/
def construct (kind : RuleKind) (pattern message : String) :
    Except InvalidPatternError RuleSpec :=
  if patternCompiles kind pattern then
    .ok { id := "", name := "", kind := kind, pattern := pattern, message := message }
  else
    .error (.invalidPattern pattern)

end SpecEngine

namespace Mirror

theorem sizeA_eq_children (n : Ast) : sizeA n = 1 + sizeL n.children := by
  cases n <;> rfl

theorem sizeA_pos (n : Ast) : 1 ≤ sizeA n := by
  rw [sizeA_eq_children]; omega

theorem sizeL_cons (n : Ast) (rest : List Ast) :
    sizeL (n :: rest) = sizeA n + sizeL rest := rfl

theorem sizeL_append (a b : List Ast) : sizeL (a ++ b) = sizeL a + sizeL b := by
  induction a with
  | nil => simp [sizeL]
  | cons n rest ih => simp [sizeL_cons, ih]; omega

theorem sizeL_eq_zero {l : List Ast} (h : sizeL l = 0) : l = [] := by
  cases l with
  | nil => rfl
  | cons n rest =>
      exfalso
      have := sizeA_pos n
      rw [sizeL_cons] at h
      omega

theorem bfsFuel_nil (f : Nat) : bfsFuel f [] = [] := by cases f <;> rfl

theorem bfsFuel_eq : ∀ f g : Nat, ∀ l : List Ast, sizeL l ≤ f → sizeL l ≤ g →
    bfsFuel f l = bfsFuel g l := by
  intro f
  induction f with
  | zero =>
      intro g l hf _
      have hl : l = [] := sizeL_eq_zero (Nat.le_zero.mp hf)
      subst hl
      rw [bfsFuel_nil, bfsFuel_nil]
  | succ f ih =>
      intro g l hf hg
      cases l with
      | nil => rw [bfsFuel_nil, bfsFuel_nil]
      | cons n rest =>
          have h1 : 1 ≤ sizeA n := sizeA_pos n
          have hsz := sizeL_cons n rest
          cases g with
          | zero => omega
          | succ g' =>
              show n :: bfsFuel f (rest ++ n.children) = n :: bfsFuel g' (rest ++ n.children)
              congr 1
              have hb : sizeL (rest ++ n.children) = sizeL rest + sizeL n.children :=
                sizeL_append ..
              have hc := sizeA_eq_children n
              exact ih g' (rest ++ n.children) (by omega) (by omega)

/-- Exact-fuel breadth-first traversal of a queue. -/
def walkList (l : List Ast) : List Ast := bfsFuel (sizeL l) l

theorem walkList_nil : walkList [] = [] := rfl

theorem walkList_cons (n : Ast) (rest : List Ast) :
    walkList (n :: rest) = n :: walkList (rest ++ n.children) := by
  unfold walkList
  have h1 : 1 ≤ sizeA n := sizeA_pos n
  have hsz := sizeL_cons n rest
  have hb : sizeL (rest ++ n.children) = sizeL rest + sizeL n.children := sizeL_append ..
  have hc := sizeA_eq_children n
  obtain ⟨k, hk⟩ : ∃ k, sizeL (n :: rest) = k + 1 := ⟨sizeL (n :: rest) - 1, by omega⟩
  rw [hk]
  show n :: bfsFuel k (rest ++ n.children) = n :: bfsFuel (sizeL (rest ++ n.children)) (rest ++ n.children)
  congr 1
  exact bfsFuel_eq k (sizeL (rest ++ n.children)) (rest ++ n.children) (by omega) le_rfl

theorem walk_eq_walkList (t : Ast) : walk t = walkList [t] := by
  unfold walk walkList
  exact bfsFuel_eq (sizeA t) (sizeL [t]) [t] (by simp [sizeL_cons, sizeL]) le_rfl

theorem roundChildren_nil : roundChildren [] = [] := rfl

theorem roundChildren_cons (n : Ast) (rest : List Ast) :
    roundChildren (n :: rest) = n.children ++ roundChildren rest := by
  simp [roundChildren]

theorem sizeL_round (l : List Ast) : sizeL (roundChildren l) + l.length = sizeL l := by
  induction l with
  | nil => rfl
  | cons n rest ih =>
      rw [roundChildren_cons, sizeL_append, sizeL_cons]
      have hc := sizeA_eq_children n
      simp only [List.length_cons]
      omega

theorem levelsFuel_nil (f : Nat) : levelsFuel f [] = [] := by cases f <;> rfl

theorem levelsFuel_eq : ∀ f g : Nat, ∀ l : List Ast, sizeL l ≤ f → sizeL l ≤ g →
    levelsFuel f l = levelsFuel g l := by
  intro f
  induction f with
  | zero =>
      intro g l hf _
      have hl : l = [] := sizeL_eq_zero (Nat.le_zero.mp hf)
      subst hl
      rw [levelsFuel_nil, levelsFuel_nil]
  | succ f ih =>
      intro g l hf hg
      cases l with
      | nil => rw [levelsFuel_nil, levelsFuel_nil]
      | cons n rest =>
          have h1 : 1 ≤ sizeA n := sizeA_pos n
          have hsz := sizeL_cons n rest
          cases g with
          | zero => omega
          | succ g' =>
              show (n :: rest) :: levelsFuel f (roundChildren (n :: rest)) =
                (n :: rest) :: levelsFuel g' (roundChildren (n :: rest))
              congr 1
              have hr := sizeL_round (n :: rest)
              have hlen : 1 ≤ (n :: rest).length := by simp
              exact ih g' _ (by omega) (by omega)

/-- Exact-fuel level decomposition of a queue. -/
def levelsList (l : List Ast) : List (List Ast) := levelsFuel (sizeL l) l

theorem levelsList_cons (n : Ast) (rest : List Ast) :
    levelsList (n :: rest) = (n :: rest) :: levelsList (roundChildren (n :: rest)) := by
  unfold levelsList
  have h1 : 1 ≤ sizeA n := sizeA_pos n
  have hsz := sizeL_cons n rest
  obtain ⟨k, hk⟩ : ∃ k, sizeL (n :: rest) = k + 1 := ⟨sizeL (n :: rest) - 1, by omega⟩
  rw [hk]
  show (n :: rest) :: levelsFuel k (roundChildren (n :: rest)) =
    (n :: rest) :: levelsFuel (sizeL (roundChildren (n :: rest))) (roundChildren (n :: rest))
  congr 1
  have hr := sizeL_round (n :: rest)
  have hlen : 1 ≤ (n :: rest).length := by simp
  exact levelsFuel_eq k _ _ (by omega) le_rfl

theorem levels_eq_levelsList (t : Ast) : levels t = levelsList [t] := by
  unfold levels levelsList
  exact levelsFuel_eq (sizeA t) (sizeL [t]) [t] (by simp [sizeL_cons, sizeL]) le_rfl

theorem walkList_acc : ∀ l acc : List Ast,
    walkList (l ++ acc) = l ++ walkList (acc ++ roundChildren l) := by
  intro l
  induction l with
  | nil => intro acc; simp [roundChildren_nil]
  | cons n rest ih =>
      intro acc
      rw [List.cons_append, walkList_cons, List.append_assoc, ih (acc ++ n.children),
        roundChildren_cons]
      simp [List.append_assoc]

theorem walkList_round (l : List Ast) :
    walkList l = l ++ walkList (roundChildren l) := by
  have h := walkList_acc l []
  simpa using h

theorem walkList_levels : ∀ N : Nat, ∀ l : List Ast, sizeL l ≤ N →
    walkList l = (levelsList l).flatten := by
  intro N
  induction N with
  | zero =>
      intro l h
      have hl : l = [] := sizeL_eq_zero (Nat.le_zero.mp h)
      subst hl
      rfl
  | succ N ih =>
      intro l h
      cases l with
      | nil => rfl
      | cons n rest =>
          rw [levelsList_cons, List.flatten_cons, walkList_round (n :: rest)]
          congr 1
          have hr := sizeL_round (n :: rest)
          have hlen : 1 ≤ (n :: rest).length := by simp
          exact ih _ (by omega)

/-- The breadth-first node order of `ast.walk` is exactly the
concatenation of the successive depth levels of the tree. -/
theorem walk_eq_flatten_levels (t : Ast) : walk t = (levels t).flatten := by
  rw [walk_eq_walkList, levels_eq_levelsList]
  exact walkList_levels (sizeL [t]) [t] le_rfl

end Mirror

namespace Mirror

theorem detect_content (g : Nat → String) (n : Ast) (s : Signal)
    (h : detectSignal g n = some s) : s.content = g s.line := by
  cases n with
  | tryStmt l cs =>
      simp only [detectSignal, Option.some.injEq] at h
      subst h; rfl
  | raiseStmt l cs =>
      simp only [detectSignal, Option.some.injEq] at h
      subst h; rfl
  | awaitExpr l cs =>
      simp only [detectSignal, Option.some.injEq] at h
      subst h; rfl
  | classDef name l cs =>
      simp only [detectSignal] at h
      split at h
      · simp only [Option.some.injEq] at h; subst h; rfl
      · exact absurd h (by simp)
  | functionDef name l cs =>
      simp only [detectSignal] at h
      split at h
      · simp only [Option.some.injEq] at h; subst h; rfl
      · exact absurd h (by simp)
  | annAssign target ty value l cs =>
      simp only [detectSignal] at h
      split at h
      · simp only [Option.some.injEq] at h; subst h; rfl
      · split at h
        · simp only [Option.some.injEq] at h; subst h; rfl
        · split at h
          · split at h
            · simp only [Option.some.injEq] at h; subst h; rfl
            · exact absurd h (by simp)
          · exact absurd h (by simp)
  | otherNode l cs =>
      exact absurd h (by simp [detectSignal])

end Mirror


namespace Mirror

theorem detect_kind_eq_head (g : Nat → String) (n : Ast) :
    (detectSignal g n).map Signal.kind = (matchingKinds n).head? := by
  cases n with
  | tryStmt l cs => rfl
  | raiseStmt l cs => rfl
  | awaitExpr l cs => rfl
  | classDef name l cs =>
      by_cases hs : isServiceClassName name = true
      · simp [detectSignal, matchingKinds, nodeIsTry, nodeIsRaise, nodeIsAwait,
          nodeIsServiceClass, nodeIsValidateFunc, nodeIsBoolFlag, nodeIsPrimType,
          nodeIsFieldDefault, hs]
      · simp only [Bool.not_eq_true] at hs
        simp [detectSignal, matchingKinds, nodeIsTry, nodeIsRaise, nodeIsAwait,
          nodeIsServiceClass, nodeIsValidateFunc, nodeIsBoolFlag, nodeIsPrimType,
          nodeIsFieldDefault, hs]
  | functionDef name l cs =>
      by_cases hs : isValidateFuncName name = true
      · simp [detectSignal, matchingKinds, nodeIsTry, nodeIsRaise, nodeIsAwait,
          nodeIsServiceClass, nodeIsValidateFunc, nodeIsBoolFlag, nodeIsPrimType,
          nodeIsFieldDefault, hs]
      · simp only [Bool.not_eq_true] at hs
        simp [detectSignal, matchingKinds, nodeIsTry, nodeIsRaise, nodeIsAwait,
          nodeIsServiceClass, nodeIsValidateFunc, nodeIsBoolFlag, nodeIsPrimType,
          nodeIsFieldDefault, hs]
  | annAssign target ty value l cs =>
      cases hp : primName ty <;> rcases value with _ | v <;> (try cases v) <;>
        by_cases hb : isBoolFlagTarget target <;>
        simp_all [detectSignal, matchingKinds, nodeIsTry, nodeIsRaise, nodeIsAwait,
          nodeIsServiceClass, nodeIsValidateFunc, nodeIsBoolFlag, nodeIsPrimType,
          nodeIsFieldDefault, isSafeDefault]
  | otherNode l cs => rfl

end Mirror

namespace Mirror

theorem getLine_eq_rawLine (lines : List String) (n : Nat) :
    getLine lines n =
      if 60 < (rawLine lines n).length then
        String.mk ((rawLine lines n).data.take 60) ++ "..."
      else rawLine lines n := by
  unfold getLine rawLine
  by_cases hr : 1 ≤ n ∧ n ≤ lines.length
  · rw [if_pos hr, if_pos hr]
  · rw [if_neg hr, if_neg hr]
    rfl

end Mirror

open Mirror in
/-- C1: for every source whose content does not parse in the governed
language, `SourceFile.scan` returns the empty signal sequence (the
embedded scan is total, so it never raises). -/
theorem c1_unparsable_scan_empty (parse : String → Option Ast) (sf : SourceFile)
    (h : parse sf.content = none) : scan parse sf = [] := by
  unfold scan
  rw [h]

namespace Mirror

/-- The always-failing parse outcome of mid-edit invalid syntax. -/
def c1Parse : String → Option Ast := fun _ => none

/-- Scenario C of the spec: a file that is not valid syntax. -/
def c1Src : SourceFile := ⟨"live.py", "def broken(\n    not valid"⟩

end Mirror

open Mirror in
/-- C1 witness: the theorem applied to the unparsable Scenario C file. -/
theorem c1_unparsable_scan_empty_witness :
    c1Parse c1Src.content = none ∧ scan c1Parse c1Src = [] :=
  ⟨rfl, c1_unparsable_scan_empty c1Parse c1Src rfl⟩

namespace Mirror

/-- A class body with an annotated assignment matching two rules at
once (`boolean_flag` via the `is_`-name and `primitive_type` via the
`bool` annotation). -/
def c2Tree : Ast :=
  .otherNode 1 [.classDef "C" 1
    [.annAssign (.nameTarget "is_active") (.nameAnn "bool") none 2
      [.otherNode 2 [], .otherNode 2 []]]]

/-- The source text of `c2Tree`. -/
def c2Src : SourceFile := ⟨"model.py", "class C:\n    is_active: bool"⟩

/-- Parse outcome of `c2Src`. -/
def c2Parse : String → Option Ast :=
  fun s => if s = "class C:\n    is_active: bool" then some c2Tree else none

end Mirror

open Mirror in
/-- C2 counterexample: a node matching two distinct rules contributes
one violation, not two — the scan of `c2Src` has 2 (node, matching
rule) pairs but yields 1 violation. -/
theorem c2_one_per_pair_counterexample :
    pairCount c2Parse c2Src = 2 ∧ (scan c2Parse c2Src).length = 1 := by
  decide

open Mirror in
/-- C2 amended: for every parsable source, the scan evaluates the
pattern cases at every walked node in a fixed dispatch order and yields
at most one violation per node, whose kind is the first matching rule
of that order. -/
theorem c2_first_match_per_node (parse : String → Option Ast) (sf : SourceFile)
    (tree : Ast) (h : parse sf.content = some tree) :
    (scan parse sf).map Signal.kind =
      (walk tree).filterMap (fun n => (matchingKinds n).head?) := by
  unfold scan
  rw [h, List.map_filterMap]
  exact List.filterMap_congr (fun n _ => detect_kind_eq_head _ n)

open Mirror in
/-- C2 witness: the amended theorem applied to `c2Src`. -/
theorem c2_first_match_per_node_witness :
    c2Parse c2Src.content = some c2Tree ∧
      (scan c2Parse c2Src).map Signal.kind =
        (walk c2Tree).filterMap (fun n => (matchingKinds n).head?) :=
  ⟨rfl, c2_first_match_per_node c2Parse c2Src c2Tree rfl⟩

namespace Mirror

/-- A module with a nested `raise` (line 3) and a later top-level
`raise` (line 4): document pre-order puts line 3 first, while the
breadth-first `ast.walk` reaches line 4 first. -/
def c3Tree : Ast :=
  .otherNode 1 [
    .classDef "A" 1 [.functionDef "f" 2 [.otherNode 2 [], .raiseStmt 3 [.otherNode 3 []]]],
    .raiseStmt 4 [.otherNode 4 []]]

/-- The source text of `c3Tree`. -/
def c3Src : SourceFile :=
  ⟨"flow.py", "class A:\n    def f(self):\n        raise X\nraise Y"⟩

/-- Parse outcome of `c3Src`. -/
def c3Parse : String → Option Ast :=
  fun s => if s = "class A:\n    def f(self):\n        raise X\nraise Y" then some c3Tree
    else none

end Mirror

open Mirror in
/-- C3 counterexample: the violation order of the scan is not the
(pre-order position, rule index) lexicographic order — the line-4
`raise` is reported before the deeper line-3 `raise`. -/
theorem c3_preorder_counterexample :
    (scan c3Parse c3Src).map Signal.line = [4, 3] ∧
      (preorderScan c3Parse c3Src).map Signal.line = [3, 4] ∧
      scan c3Parse c3Src ≠ preorderScan c3Parse c3Src := by
  decide

open Mirror in
/-- C3 amended: violations are ordered by (node depth, left-to-right
position within the depth level) — the scan is the concatenation, level
by level, of the per-level detections. -/
theorem c3_level_order (parse : String → Option Ast) (sf : SourceFile)
    (tree : Ast) (h : parse sf.content = some tree) :
    scan parse sf =
      ((levels tree).map
        (fun lvl => lvl.filterMap (detectSignal (getLine (splitlines sf.content))))).flatten := by
  unfold scan
  rw [h]
  show (walk tree).filterMap (detectSignal (getLine (splitlines sf.content))) = _
  rw [walk_eq_flatten_levels]
  exact List.filterMap_flatten _ _

open Mirror in
/-- C3 witness: the amended theorem applied to `c3Src`. -/
theorem c3_level_order_witness :
    c3Parse c3Src.content = some c3Tree ∧
      scan c3Parse c3Src =
        ((levels c3Tree).map
          (fun lvl => lvl.filterMap (detectSignal (getLine (splitlines c3Src.content))))).flatten :=
  ⟨rfl, c3_level_order c3Parse c3Src c3Tree rfl⟩

namespace Mirror

/-- The two-line import source of Scenario A, with the tree shape the
current scanner sees: two `ast.Import` statements (unmatched node
shapes) with their alias children. -/
def c4Tree : Ast :=
  .otherNode 1 [.otherNode 1 [.otherNode 1 []], .otherNode 2 [.otherNode 2 []]]

/-- The Scenario A source file. -/
def c4Src : SourceFile := ⟨"entity.py", "import boto3\nimport pydantic"⟩

/-- Parse outcome of `c4Src`. -/
def c4Parse : String → Option Ast :=
  fun s => if s = "import boto3\nimport pydantic" then some c4Tree else none

end Mirror

open Mirror in
/-- C4: evaluating the current code at the failing input — scanning the
Scenario A source yields no violation at all, not the single line-1
`import boto3` violation the scenario (and `test_detects_banned_import`)
requires, since the scanner has no import rules. -/
theorem c4_scenario_a_yields_nothing :
    scan c4Parse c4Src = [] ∧ (scan c4Parse c4Src).length ≠ 1 := by
  decide

/-- C5: a rule definition whose pattern does not compile as a matching
expression for its kind never constructs — `construct` fails with
`InvalidPatternError`, so no rule with a malformed pattern is ever
observable (and hence none ever matches a node). -/
theorem c5_malformed_pattern_never_constructs (k : SpecEngine.RuleKind) (p m : String)
    (h : SpecEngine.patternCompiles k p = false) :
    SpecEngine.construct k p m = .error (.invalidPattern p) ∧
      ∀ r : SpecEngine.RuleSpec, SpecEngine.construct k p m ≠ .ok r := by
  refine ⟨by simp [SpecEngine.construct, h], ?_⟩
  intro r
  simp [SpecEngine.construct, h]

/-- C5 witness: the unbalanced pattern `"("` for a class-name rule. -/
theorem c5_malformed_pattern_never_constructs_witness :
    SpecEngine.patternCompiles SpecEngine.RuleKind.classNameRule "(" = false ∧
      SpecEngine.construct SpecEngine.RuleKind.classNameRule "(" "no Manager classes" =
        .error (.invalidPattern "(") :=
  ⟨by decide,
    (c5_malformed_pattern_never_constructs SpecEngine.RuleKind.classNameRule "("
      "no Manager classes" (by decide)).1⟩

namespace Mirror

/-- Two raise signals — more violations than a display limit of 1. -/
def c6Result : ScanResult :=
  ⟨"svc.py",
   [⟨"raise_stmt", "03", 1, "raise X", "raise — return Failure types instead"⟩,
    ⟨"raise_stmt", "03", 2, "raise Y", "raise — return Failure types instead"⟩],
   []⟩

end Mirror

open Mirror in
set_option maxRecDepth 8192 in
/-- C6 counterexample: with 2 violations and a configured limit of 1
the report would have to show exactly 1 entry plus an omitted count,
but the formatted report shows all 2 entries (no limit exists). -/
theorem c6_limit_counterexample :
    c6Result.signals.length = 2 ∧ 1 < c6Result.signals.length ∧
      violationEntryCount (formatMessage c6Result) = 2 ∧
      violationEntryCount (formatMessage c6Result) ≠ 1 := by
  decide

open Mirror in
/-- C6 amended: the report never truncates — for a non-empty violation
list the formatted message is produced and the entry block of every
violation appears, in order, among the report parts; no display limit
and no omitted-violation count exist. -/
theorem c6_report_never_truncates (res : ScanResult) (h : res.signals ≠ []) :
    formatMessage res = .messageOutput (strJoin "\n" (formatParts res)) ∧
      List.Sublist ((res.signals.map signalEntry).flatten) (formatParts res) := by
  have hs : res.signals.isEmpty = false := by
    simp [List.isEmpty_iff, h]
  constructor
  · unfold formatMessage
    rw [hs]
    simp
  · unfold formatParts
    rw [hs]
    simp only [Bool.false_eq_true, if_false, List.append_assoc, List.cons_append,
      List.nil_append]
    exact (((List.sublist_append_left _ _).cons _).cons _).cons _

open Mirror in
/-- C6 witness: the amended theorem applied to the two-signal result. -/
theorem c6_report_never_truncates_witness :
    c6Result.signals ≠ [] ∧
      (formatMessage c6Result = .messageOutput (strJoin "\n" (formatParts c6Result)) ∧
        List.Sublist ((c6Result.signals.map signalEntry).flatten) (formatParts c6Result)) :=
  ⟨by decide, c6_report_never_truncates c6Result (by decide)⟩

namespace Mirror

/-- An applicable rule with no signals. -/
def c7Rule : RuleRef :=
  ⟨"01", "pattern-01-construction", ["src/domain/**/*.py"], "Factory construction rule text"⟩

/-- A scan result with an empty violation list but one applicable rule. -/
def c7Result : ScanResult := ⟨"store.py", [], [c7Rule]⟩

end Mirror

open Mirror in
/-- C7 counterexample: formatting an empty violation list does not
return the empty sentinel when an applicable rule exists — a message is
produced. -/
theorem c7_empty_sentinel_counterexample :
    c7Result.signals = [] ∧ formatMessage c7Result ≠ .noOutput := by
  decide

open Mirror in
/-- C7 amended: the empty sentinel is returned exactly when both the
violation list and the applicable-rule list are empty. -/
theorem c7_sentinel_iff_all_empty (res : ScanResult) :
    formatMessage res = .noOutput ↔ res.signals = [] ∧ res.applicableRules = [] := by
  unfold formatMessage
  by_cases h1 : res.signals.isEmpty <;> by_cases h2 : res.applicableRules.isEmpty <;>
    simp_all [List.isEmpty_iff]

namespace Mirror

/-- A rule whose only glob is `domain/*.py`. -/
def c8Rule : RuleRef := ⟨"02", "pattern-02-states", ["domain/*.py"], "State rule text"⟩

/-- A candidate file under `src/domain/` — outside the glob under
standard whole-path glob semantics. -/
def c8Src : SourceFile := ⟨"src/domain/x.py", ""⟩

/-- Parse outcome irrelevant to rule applicability. -/
def c8Parse : String → Option Ast := fun _ => none

end Mirror

open Mirror in
/-- C8 counterexample: the processor applies the rule to a path that
matches none of its configured globs under standard glob semantics —
membership is decided by a widened suffix match instead. -/
theorem c8_glob_only_if_counterexample :
    (process [c8Rule] c8Parse c8Src).applicableRules = [c8Rule] ∧
      c8Rule.globs.any (fun g => stdGlobMatch c8Src.path g) = false := by
  decide

open Mirror in
/-- C8 amended: in incremental mode a rule is applied to a file exactly
when `matches_path` accepts it: some configured glob, with `**`
collapsed to `*`, fnmatches the whole path or — prefixed with `*` — a
suffix of it; plain whole-path glob membership is sufficient but not
necessary. -/
theorem c8_rule_applied_iff_matches_path (rules : List RuleRef)
    (parse : String → Option Ast) (sf : SourceFile) (r : RuleRef) :
    r ∈ (process rules parse sf).applicableRules ↔
      r ∈ rules ∧ matchesPath r sf.path = true := by
  simp [process, List.mem_filter]

open Mirror in
/-- C9: every violation of a scan has a line number ≥ 0 and its snippet
is the stripped source line of its line number, truncated to 60
characters with an explicit `...` marker exactly when the line was
longer than 60 characters (and untouched otherwise). -/
theorem c9_snippet_truncation (parse : String → Option Ast) (sf : SourceFile)
    (s : Signal) (h : s ∈ scan parse sf) :
    0 ≤ s.line ∧
      (¬ 60 < (rawLine (splitlines sf.content) s.line).length →
        s.content = rawLine (splitlines sf.content) s.line) ∧
      (60 < (rawLine (splitlines sf.content) s.line).length →
        s.content = String.mk ((rawLine (splitlines sf.content) s.line).data.take 60) ++ "...") := by
  refine ⟨Nat.zero_le _, ?_⟩
  unfold scan at h
  cases hp : parse sf.content with
  | none => rw [hp] at h; simp at h
  | some tree =>
      rw [hp] at h
      obtain ⟨n, hn, hd⟩ := List.mem_filterMap.mp h
      have hc := detect_content _ n s hd
      rw [getLine_eq_rawLine] at hc
      constructor
      · intro hlen
        rw [hc, if_neg hlen]
      · intro hlen
        rw [hc, if_pos hlen]

namespace Mirror

/-- A one-line file raising an error. -/
def c9Src : SourceFile := ⟨"w.py", "raise X"⟩

/-- Its syntax tree: a module with one raise statement. -/
def c9Tree : Ast := .otherNode 1 [.raiseStmt 1 [.otherNode 1 []]]

/-- Parse outcome of `c9Src`. -/
def c9Parse : String → Option Ast :=
  fun s => if s = "raise X" then some c9Tree else none

/-- The signal that scan produces for `c9Src`. -/
def c9Sig : Signal :=
  ⟨"raise_stmt", "03", 1, "raise X", "raise — return Failure types instead"⟩

end Mirror

open Mirror in
/-- C9 witness: the theorem applied to the line-1 raise signal of a
concrete scan. -/
theorem c9_snippet_truncation_witness :
    c9Sig ∈ scan c9Parse c9Src ∧
      (0 ≤ c9Sig.line ∧
        (¬ 60 < (rawLine (splitlines c9Src.content) c9Sig.line).length →
          c9Sig.content = rawLine (splitlines c9Src.content) c9Sig.line) ∧
        (60 < (rawLine (splitlines c9Src.content) c9Sig.line).length →
          c9Sig.content =
            String.mk ((rawLine (splitlines c9Src.content) c9Sig.line).data.take 60) ++ "...")) :=
  ⟨by decide, c9_snippet_truncation c9Parse c9Src c9Sig (by decide)⟩

open Mirror in
/-- C10: the line getter is total — for every line number outside
`1..(number of lines)` it returns the empty string, so scanning cannot
fail on an out-of-file line number. -/
theorem c10_line_getter_total (lines : List String) (n : Nat)
    (h : ¬ (1 ≤ n ∧ n ≤ lines.length)) : getLine lines n = "" := by
  unfold getLine
  rw [if_neg h]

open Mirror in
/-- C10 witness: the theorem applied at line 5 of a one-line file (and
the zero line number case evaluates to the empty string as well). -/
theorem c10_line_getter_total_witness :
    ¬ (1 ≤ 5 ∧ 5 ≤ (["raise X"] : List String).length) ∧
      getLine ["raise X"] 5 = "" ∧ getLine ["raise X"] 0 = "" :=
  ⟨by decide, c10_line_getter_total ["raise X"] 5 (by decide), by decide⟩
